import Mathlib

/-!
Verification of the line-range text patcher in
`src-tauri/src/commands/claude/modify_script.py` and
`src-tauri/src/commands/claude/precise_modify.py`.

Both scripts read `project_store.rs` with `readlines()`, build a new line
sequence `lines[:89] ++ replacement ++ lines[105:]`, and write it back with
`writelines` over `open(..., 'w')`.  The development below embeds:

* Python list slices `l[:n]` / `l[n:]` for non-negative `n` (clamping);
* the two scripts' output computations (`output_lines` and `output`);
* text-mode `readlines` with universal-newline translation;
* strict UTF-8 decoding as done by `open(..., encoding='utf-8')`;
* the write step as a trace of file operations (open-truncate, write);
* the statement-by-statement state of `precise_modify.py` (fields `lines`
  and `output`), to express that the input list is never mutated.
-/

namespace AnyCode

/-- Python slice `l[:n]` for a non-negative index `n`: the first
`min n (length l)` elements (out-of-range indices clamp, never error). -/
def pySliceTo (l : List α) (n : Nat) : List α := l.take (min n l.length)

/-- Python slice `l[n:]` for a non-negative index `n`: everything from
position `min n (length l)` on (out-of-range indices clamp, never error). -/
def pySliceFrom (l : List α) (n : Nat) : List α := l.drop (min n l.length)

/-- The replacement block of `precise_modify.py`: the 23 strings passed to
`output.append`, in order, each with its trailing newline. -/
def preciseReplacementLines : List String :=
  [ "                                    // 验证会话是否有效(有用户消息)才计入统计\n"
  , "                                    let metadata = extract_session_metadata(&session_path);\n"
  , "                                    let has_user_message = metadata.first_message\n"
  , "                                        .as_ref()\n"
  , "                                        .map(|msg| !msg.trim().is_empty())\n"
  , "                                        .unwrap_or(false);\n"
  , "\n"
  , "                                    if has_user_message \x7b\n"
  , "                                        sessions.push(session_id.to_string());\n"
  , "\n"
  , "                                        if let Ok(session_metadata) = fs::metadata(&session_path) \x7b\n"
  , "                                            let session_modified = session_metadata\n"
  , "                                                .modified()\n"
  , "                                                .unwrap_or(SystemTime::UNIX_EPOCH)\n"
  , "                                                .duration_since(SystemTime::UNIX_EPOCH)\n"
  , "                                                .unwrap_or_default()\n"
  , "                                                .as_secs();\n"
  , "\n"
  , "                                            if session_modified > latest_activity \x7b\n"
  , "                                                latest_activity = session_modified;\n"
  , "                                            \x7d\n"
  , "                                        \x7d\n"
  , "                                    \x7d\n"
  ]

/-- The replacement block of `modify_script.py`: the single triple-quoted
string `new_code`, transcribed line by line (the `++` breaks mirror the
physical lines of the literal). -/
def new_code : String :=
  "                                    // 验证会话是否有效(有用户消息)才计入统计\n"
  ++ "                                    let metadata = extract_session_metadata(&session_path);\n"
  ++ "                                    let has_user_message = metadata.first_message\n"
  ++ "                                        .as_ref()\n"
  ++ "                                        .map(|msg| !msg.trim().is_empty())\n"
  ++ "                                        .unwrap_or(false);\n"
  ++ "\n"
  ++ "                                    if has_user_message \x7b\n"
  ++ "                                        sessions.push(session_id.to_string());\n"
  ++ "\n"
  ++ "                                        if let Ok(session_metadata) = fs::metadata(&session_path) \x7b\n"
  ++ "                                            let session_modified = session_metadata\n"
  ++ "                                                .modified()\n"
  ++ "                                                .unwrap_or(SystemTime::UNIX_EPOCH)\n"
  ++ "                                                .duration_since(SystemTime::UNIX_EPOCH)\n"
  ++ "                                                .unwrap_or_default()\n"
  ++ "                                                .as_secs();\n"
  ++ "\n"
  ++ "                                            if session_modified > latest_activity \x7b\n"
  ++ "                                                latest_activity = session_modified;\n"
  ++ "                                            \x7d\n"
  ++ "                                        \x7d\n"
  ++ "                                    \x7d\n"

/-- The line sequence built by `modify_script.py`:
`output_lines = lines[:89]`, then `output_lines.append(new_code)`, then
`output_lines.extend(lines[105:])`.  The appended replacement is a single
(multi-line) string, so it contributes one list element. -/
def output_lines (lines : List String) : List String :=
  pySliceTo lines 89 ++ [new_code] ++ pySliceFrom lines 105

/-- The line sequence built by `precise_modify.py`:
`output = lines[:89]`, then 23 `output.append(...)` calls, then
`output.extend(lines[105:])`. -/
def output (lines : List String) : List String :=
  pySliceTo lines 89 ++ preciseReplacementLines ++ pySliceFrom lines 105

/-- Modelled from the spec: the generalized `apply(sequence, range,
replacement)` routine (`§4.1`) that the scripts instantiate with the
hardcoded range `[89, 105)`; it returns
`prefix (lines[0:start]) + ReplacementBlock + suffix (lines[end:])`.
The reusable parameterized routine itself is absent from `src/` (the
scripts bake the indices in), so it is modelled here from the spec's
words, using the same Python slice semantics as the scripts. -/
def applyOp (lines : List String) (s e : Nat) (repl : List String) : List String :=
  pySliceTo lines s ++ repl ++ pySliceFrom lines e

/-! ### Text-mode reading: universal newlines and `readlines` -/

/-- Universal-newline translation performed by `open(..., 'r')` in text mode
(the scripts pass no `newline` argument, so the default applies): each
`"\r\n"` pair and each lone `"\r"` becomes `"\n"`. -/
def translateNewlines : List Char → List Char
  | [] => []
  | c :: [] => if c = '\r' then ['\n'] else [c]
  | c :: c2 :: rest =>
    if c = '\r' then
      if c2 = '\n' then '\n' :: translateNewlines rest
      else '\n' :: translateNewlines (c2 :: rest)
    else c :: translateNewlines (c2 :: rest)

/-- Helper for `readlines`: split the (already newline-translated) character
stream after each `'\n'`, keeping the terminator with its line; `acc` holds
the current line's characters in reverse. -/
def readlinesAux (acc : List Char) : List Char → List (List Char)
  | [] => if acc.isEmpty then [] else [acc.reverse]
  | c :: rest =>
    if c = '\n' then (acc.reverse ++ ['\n']) :: readlinesAux [] rest
    else readlinesAux (c :: acc) rest

/-- `f.readlines()` on a text-mode file whose decoded content is `s`:
newline translation followed by splitting after each `'\n'` (a final
unterminated line is kept as-is). -/
def readlines (s : List Char) : List (List Char) :=
  readlinesAux [] (translateNewlines s)

/-! ### Strict UTF-8, as `open(..., encoding='utf-8')` decodes and encodes -/

/-- A UTF-8 continuation byte: `0x80 ≤ b ≤ 0xBF`. -/
def isCont (b : Nat) : Bool := 0x80 ≤ b && b ≤ 0xBF

/-- Strict UTF-8 decoding of a byte list (CPython's `'utf-8'` codec with
default `'strict'` error handling): rejects truncated sequences, stray
continuation bytes, overlong encodings, surrogates and code points beyond
`U+10FFFF`; `none` models `UnicodeDecodeError`. -/
def utf8Decode : List Nat → Option (List Char)
  | [] => some []
  | b0 :: t0 =>
    if b0 ≤ 0x7F then
      match utf8Decode t0 with
      | some cs => some (Char.ofNat b0 :: cs)
      | none => none
    else if b0 ≤ 0xC1 then none
    else if b0 ≤ 0xDF then
      match t0 with
      | b1 :: t1 =>
        if isCont b1 then
          match utf8Decode t1 with
          | some cs => some (Char.ofNat ((b0 - 0xC0) * 0x40 + (b1 - 0x80)) :: cs)
          | none => none
        else none
      | [] => none
    else if b0 ≤ 0xEF then
      match t0 with
      | b1 :: b2 :: t2 =>
        if (if b0 = 0xE0 then decide (0xA0 ≤ b1) && decide (b1 ≤ 0xBF)
            else if b0 = 0xED then decide (0x80 ≤ b1) && decide (b1 ≤ 0x9F)
            else isCont b1) && isCont b2 then
          match utf8Decode t2 with
          | some cs =>
              some (Char.ofNat ((b0 - 0xE0) * 0x1000 + (b1 - 0x80) * 0x40 + (b2 - 0x80)) :: cs)
          | none => none
        else none
      | _ => none
    else if b0 ≤ 0xF4 then
      match t0 with
      | b1 :: b2 :: b3 :: t3 =>
        if (if b0 = 0xF0 then decide (0x90 ≤ b1) && decide (b1 ≤ 0xBF)
            else if b0 = 0xF4 then decide (0x80 ≤ b1) && decide (b1 ≤ 0x8F)
            else isCont b1) && isCont b2 && isCont b3 then
          match utf8Decode t3 with
          | some cs =>
              some (Char.ofNat
                ((b0 - 0xF0) * 0x40000 + (b1 - 0x80) * 0x1000
                  + (b2 - 0x80) * 0x40 + (b3 - 0x80)) :: cs)
          | none => none
        else none
      | _ => none
    else none

/-- UTF-8 encoding of one character. -/
def utf8EncodeChar (c : Char) : List Nat :=
  let n := c.toNat
  if n ≤ 0x7F then [n]
  else if n ≤ 0x7FF then [0xC0 + n / 0x40, 0x80 + n % 0x40]
  else if n ≤ 0xFFFF then
    [0xE0 + n / 0x1000, 0x80 + n / 0x40 % 0x40, 0x80 + n % 0x40]
  else
    [0xF0 + n / 0x40000, 0x80 + n / 0x1000 % 0x40, 0x80 + n / 0x40 % 0x40, 0x80 + n % 0x40]

/-- UTF-8 encoding of a character list. -/
def utf8Encode (cs : List Char) : List Nat := (cs.map utf8EncodeChar).flatten

/-! ### The filesystem and the scripts' end-to-end behaviour -/

/-- A filesystem: each path either holds a byte list or does not exist. -/
def FS := String → Option (List Nat)

/-- The error kinds the scripts' load step can signal: `NotFound` models
Python's `FileNotFoundError` from `open(..., 'r')` on a missing path,
`DecodeError` models `UnicodeDecodeError` from reading non-UTF-8 bytes. -/
inductive LoadError
  | NotFound
  | DecodeError
deriving DecidableEq

/-- `with open(path, 'r', encoding='utf-8') as f: lines = f.readlines()`:
fails with `NotFound` when the path does not exist, with `DecodeError` when
the bytes are not valid UTF-8, and otherwise yields the line list. -/
def load (fs : FS) (path : String) : Except LoadError (List String) :=
  match fs path with
  | none => .error .NotFound
  | some bs =>
    match utf8Decode bs with
    | none => .error .DecodeError
    | some cs => .ok ((readlines cs).map List.asString)

/-- What one run of `precise_modify.py` does, abstracted to its outcome:
either the load step raised, or the new line sequence was written. -/
inductive ScriptOutcome
  | errored (e : LoadError)
  | wrote (newLines : List String)
deriving DecidableEq

/-- One run of `precise_modify.py` on filesystem `fs`: load
`project_store.rs`, build `output`, write it.  There is no validation step
of any kind between load and write. -/
def scriptRun (fs : FS) : ScriptOutcome :=
  match load fs "project_store.rs" with
  | .error e => .errored e
  | .ok lines => .wrote (output lines)

/-- The byte-level character content of a joined line list (what
`f.writelines(ls)` emits on a POSIX text stream). -/
def joinedContent (ls : List String) : List Char := (ls.map String.toList).flatten

/-- The filesystem after one run of `precise_modify.py`: unchanged when the
load step raises (the exception propagates before any write), otherwise
`project_store.rs` holds the UTF-8 bytes of the joined output. -/
def scriptFS (fs : FS) : FS :=
  match load fs "project_store.rs" with
  | .error _ => fs
  | .ok lines => fun p =>
      if p = "project_store.rs" then some (utf8Encode (joinedContent (output lines)))
      else fs p

/-! ### The write step as a trace of file operations -/

/-- The file operations the persist step can perform on the target. -/
inductive FileOp
  | openTrunc (path : String)
  | writeAll (content : List Char)
deriving DecidableEq

/-- The operations performed by `with open('project_store.rs', 'w',
encoding='utf-8') as f: f.writelines(output)`: open the target itself in
truncating write mode, then write the joined content.  No temporary file,
no rename. -/
def persistOps (content : List Char) : List FileOp :=
  [.openTrunc "project_store.rs", .writeAll content]

/-- Effect of a list of file operations on the target file's content:
opening in `'w'` mode truncates to empty, a completed write replaces the
content. -/
def runFileOps (orig : List Char) : List FileOp → List Char
  | [] => orig
  | .openTrunc _ :: rest => runFileOps [] rest
  | .writeAll s :: rest => runFileOps s rest

/-- The target file's content when the persist step stops (e.g. the process
dies or the disk fills) after its first `k` operations. -/
def persistAfterK (orig content : List Char) (k : Nat) : List Char :=
  runFileOps orig ((persistOps content).take k)

/-! ### Statement-level state of `precise_modify.py` -/

/-- The two live Python variables of `precise_modify.py`: the list bound to
`lines` and the list bound to `output`. -/
structure PyState where
  lines : List String
  output : List String
deriving DecidableEq

/-- `output = lines[:89]`: slicing copies, so `output` is a fresh list and
`lines` is untouched. -/
def sliceStmt (s : PyState) : PyState :=
  { s with output := pySliceTo s.lines 89 }

/-- `output.append(x)`: mutates only the list bound to `output`. -/
def appendStmt (x : String) (s : PyState) : PyState :=
  { s with output := s.output ++ [x] }

/-- `output.extend(lines[105:])`: reads `lines`, mutates only `output`. -/
def extendStmt (s : PyState) : PyState :=
  { s with output := s.output ++ pySliceFrom s.lines 105 }

/-- The statements of `precise_modify.py` between load and write, run in
order: the slice assignment, the 23 `append` calls, the final `extend`. -/
def runPreciseStmts (lines0 : List String) : PyState :=
  extendStmt
    (preciseReplacementLines.foldl (fun st x => appendStmt x st)
      (sliceStmt { lines := lines0, output := [] }))

/-! ### Concrete fixtures used by witnesses and counterexamples -/

/-- A ten-line file, `"a\n"` on every line. -/
def tenLines : List String := List.replicate 10 "a\n"

/-- UTF-8 bytes of `tenLines` joined. -/
def bytesTen : List Nat := (List.replicate 10 [97, 10]).flatten

/-- A filesystem whose only file is a ten-line `project_store.rs`. -/
def fsTen : FS := fun p => if p = "project_store.rs" then some bytesTen else none

/-- A 105-line file, `"x\n"` on every line (so the hardcoded range
`[89, 105)` is in bounds, and the boundary line at index 88 is `"x\n"`). -/
def linesHundredFive : List String := List.replicate 105 "x\n"

/-- UTF-8 bytes of `linesHundredFive` joined. -/
def bytesHundredFive : List Nat := (List.replicate 105 [120, 10]).flatten

/-- A filesystem whose only file is a 105-line `project_store.rs`. -/
def fsHundredFive : FS := fun p => if p = "project_store.rs" then some bytesHundredFive else none

/-- A filesystem with no files at all. -/
def fsMissing : FS := fun _ => none

/-- A filesystem where `project_store.rs` holds the single byte `0xFF`,
which is not valid UTF-8. -/
def fsBadBytes : FS := fun p => if p = "project_store.rs" then some [0xFF] else none

/-- The content `precise_modify.py` writes when the source file is the
single line `"A\n"`. -/
def writtenSampleContent : List Char := joinedContent (output ["A\n"])

end AnyCode

namespace AnyCode

theorem pySliceTo_eq_take (l : List α) (n : Nat) : pySliceTo l n = l.take n := by
  unfold pySliceTo
  rcases le_total n l.length with h | h
  · rw [min_eq_left h]
  · rw [min_eq_right h, List.take_of_length_le h, List.take_of_length_le (le_refl _)]

theorem pySliceFrom_eq_drop (l : List α) (n : Nat) : pySliceFrom l n = l.drop n := by
  unfold pySliceFrom
  rcases le_total n l.length with h | h
  · rw [min_eq_left h]
  · rw [min_eq_right h, List.drop_eq_nil_of_le h, List.drop_eq_nil_of_le (le_refl _)]

theorem output_lines_eq (lines : List String) :
    output_lines lines = lines.take 89 ++ [new_code] ++ lines.drop 105 := by
  unfold output_lines
  rw [pySliceTo_eq_take, pySliceFrom_eq_drop]

theorem output_eq (lines : List String) :
    output lines = lines.take 89 ++ preciseReplacementLines ++ lines.drop 105 := by
  unfold output
  rw [pySliceTo_eq_take, pySliceFrom_eq_drop]

theorem preciseReplacementLines_length : preciseReplacementLines.length = 23 := rfl

/-- Claim C1: for every valid patch (the hardcoded range `start = 89`,
`end = 105` applied to a file of at least 105 lines), both scripts preserve
all content outside the replaced range exactly: the first 89 output lines
equal the first 89 input lines, and the output from position
`start + len(replacement)` on equals the input from position 105 on
(`modify_script.py` appends one multi-line string, so its replacement has
length 1; `precise_modify.py` appends 23 lines). -/
theorem patch_preserves_outside (lines : List String) (h : 105 ≤ lines.length) :
    ((output_lines lines).take 89 = lines.take 89
      ∧ (output_lines lines).drop (89 + 1) = lines.drop 105)
  ∧ ((output lines).take 89 = lines.take 89
      ∧ (output lines).drop (89 + 23) = lines.drop 105) := by
  have hlen : (lines.take 89).length = 89 := by
    rw [List.length_take]; omega
  refine ⟨⟨?_, ?_⟩, ?_, ?_⟩
  · rw [output_lines_eq, List.append_assoc]
    exact List.take_left' hlen
  · rw [output_lines_eq]
    refine List.drop_left' ?_
    rw [List.length_append, hlen]
    rfl
  · rw [output_eq, List.append_assoc]
    exact List.take_left' hlen
  · rw [output_eq]
    refine List.drop_left' ?_
    rw [List.length_append, hlen, preciseReplacementLines_length]

/-- Witness for C1: the 105-line file of `"x\n"` lines satisfies the length
bound and the preservation equalities. -/
theorem patch_preserves_outside_witness :
    (((output_lines linesHundredFive).take 89 = linesHundredFive.take 89
      ∧ (output_lines linesHundredFive).drop (89 + 1) = linesHundredFive.drop 105)
  ∧ ((output linesHundredFive).take 89 = linesHundredFive.take 89
      ∧ (output linesHundredFive).drop (89 + 23) = linesHundredFive.drop 105)) :=
  patch_preserves_outside linesHundredFive (by simp [linesHundredFive])

/-- Claim C5: the `apply` operation (modelled from the spec, since the
scripts hardcode its parameters) returns exactly
`lines[0:start] ++ replacement ++ lines[end:]`; on the file
`["A\n","B\n","C\n","D\n"]` with range `[1,3)` and replacement
`["X\n","Y\n"]` it returns `["A\n","X\n","Y\n","D\n"]`; and
`precise_modify.py`'s `output` is exactly this operation instantiated at
`start = 89`, `end = 105` with its hardcoded replacement block. -/
theorem apply_is_splice (lines repl : List String) (s e : Nat) :
    applyOp lines s e repl = lines.take s ++ repl ++ lines.drop e
  ∧ applyOp ["A\n", "B\n", "C\n", "D\n"] 1 3 ["X\n", "Y\n"] = ["A\n", "X\n", "Y\n", "D\n"]
  ∧ output lines = applyOp lines 89 105 preciseReplacementLines := by
  refine ⟨?_, by decide, rfl⟩
  unfold applyOp
  rw [pySliceTo_eq_take, pySliceFrom_eq_drop]

/-- Claim C10: on any input of fewer than 105 lines both scripts still
complete: the slices clamp, so the output is the (possibly truncated)
prefix `lines[:89]` followed by the replacement block and an empty suffix;
when the file has at most 89 lines the prefix is the whole file. -/
theorem short_input_splice (lines : List String) (h : lines.length < 105) :
    output lines = lines.take 89 ++ preciseReplacementLines
  ∧ output_lines lines = lines.take 89 ++ [new_code]
  ∧ (lines.length ≤ 89 → lines.take 89 = lines) := by
  have hd : lines.drop 105 = [] := List.drop_eq_nil_of_le (by omega)
  refine ⟨?_, ?_, ?_⟩
  · rw [output_eq, hd, List.append_assoc, List.append_nil]
  · rw [output_lines_eq, hd, List.append_assoc, List.append_nil]
  · intro h89
    exact List.take_of_length_le h89

/-- Witness for C10: the one-line file `["A\n"]` is shorter than 105 lines
and yields the whole file followed by the replacement block. -/
theorem short_input_splice_witness :
    (output ["A\n"] = (["A\n"] : List String).take 89 ++ preciseReplacementLines
  ∧ output_lines ["A\n"] = (["A\n"] : List String).take 89 ++ [new_code]
  ∧ ((["A\n"] : List String).length ≤ 89 → (["A\n"] : List String).take 89 = ["A\n"])) :=
  short_input_splice ["A\n"] (by decide)

theorem foldl_appendStmt (l : List String) (st : PyState) :
    (l.foldl (fun st x => appendStmt x st) st).lines = st.lines
  ∧ (l.foldl (fun st x => appendStmt x st) st).output = st.output ++ l := by
  induction l generalizing st with
  | nil => simp
  | cons x xs ih =>
    simp only [List.foldl_cons]
    refine ⟨(ih _).1.trans rfl, (ih _).2.trans ?_⟩
    show st.output ++ [x] ++ xs = st.output ++ x :: xs
    rw [List.append_assoc]
    rfl

/-- Claim C7: the patch construction is pure with respect to its input:
running the statements of `precise_modify.py` leaves the list bound to
`lines` exactly as loaded (slicing copies; `append`/`extend` touch only the
fresh `output` list), and the fresh `output` list holds the patched
sequence. -/
theorem apply_pure_no_mutation (lines0 : List String) :
    (runPreciseStmts lines0).lines = lines0
  ∧ (runPreciseStmts lines0).output = output lines0 := by
  unfold runPreciseStmts
  have h := foldl_appendStmt preciseReplacementLines (sliceStmt { lines := lines0, output := [] })
  constructor
  · show (preciseReplacementLines.foldl (fun st x => appendStmt x st)
      (sliceStmt { lines := lines0, output := [] })).lines = lines0
    exact h.1.trans rfl
  · show (preciseReplacementLines.foldl (fun st x => appendStmt x st)
        (sliceStmt { lines := lines0, output := [] })).output
      ++ pySliceFrom (preciseReplacementLines.foldl (fun st x => appendStmt x st)
        (sliceStmt { lines := lines0, output := [] })).lines 105
      = output lines0
    rw [h.1, h.2]
    show pySliceTo lines0 89 ++ preciseReplacementLines ++ pySliceFrom lines0 105 = output lines0
    rfl

/-- Counterexample for C9 as stated: `precise_modify.py` appends the
replacement as 23 separate lines, not 24. -/
theorem precise_append_count_not_24 : ¬ preciseReplacementLines.length = 24 := by decide

set_option maxRecDepth 100000 in
/-- Claim C9 (amended: 23 appended lines, not 24): the two scripts are
equivalent — for every input line list, the character content written by
`modify_script.py` (one multi-line string) equals the character content
written by `precise_modify.py` (23 separate lines). -/
theorem scripts_write_same_content (lines : List String) :
    joinedContent (output_lines lines) = joinedContent (output lines)
  ∧ preciseReplacementLines.length = 23 := by
  refine ⟨?_, rfl⟩
  rw [output_lines_eq, output_eq]
  unfold joinedContent
  simp only [List.map_append, List.flatten_append]
  congr 2

theorem translateNewlines_of_no_cr (s : List Char) (h : '\x0d' ∉ s) :
    translateNewlines s = s := by
  induction s with
  | nil => rfl
  | cons c rest ih =>
    have hc : c ≠ '\x0d' := by
      intro hcc
      subst hcc
      exact h (List.mem_cons_self _ _)
    have hrest : '\x0d' ∉ rest := fun hm => h (List.mem_cons_of_mem _ hm)
    cases rest with
    | nil => simp [translateNewlines, hc]
    | cons c2 rest2 =>
      simp only [translateNewlines, if_neg hc]
      rw [ih hrest]

theorem readlinesAux_flatten (t : List Char) :
    ∀ acc, (readlinesAux acc t).flatten = acc.reverse ++ t := by
  induction t with
  | nil =>
    intro acc
    cases acc with
    | nil => simp [readlinesAux]
    | cons a as => simp [readlinesAux]
  | cons c rest ih =>
    intro acc
    by_cases hc : c = '\n'
    · subst hc
      have hstep : readlinesAux acc ('\n' :: rest)
          = (acc.reverse ++ ['\n']) :: readlinesAux [] rest := by
        simp [readlinesAux]
      rw [hstep, List.flatten_cons, ih []]
      simp
    · have hstep : readlinesAux acc (c :: rest) = readlinesAux (c :: acc) rest := by
        simp [readlinesAux, hc]
      rw [hstep, ih (c :: acc)]
      simp

/-- Claim C6 (amended: the round-trip holds for content free of carriage
returns): loading splits the content into lines retaining their
terminators, and re-joining the loaded lines reconstructs the content
exactly — provided the content contains no `'\r'`.  In general the
text-mode read first translates `"\r\n"` and `"\r"` to `"\n"`, so for CRLF
content re-joining yields the translated content, not the original
bytes. -/
theorem readlines_roundtrip (s : List Char) (h : '\x0d' ∉ s) :
    (readlines s).flatten = s := by
  unfold readlines
  rw [translateNewlines_of_no_cr s h, readlinesAux_flatten]
  simp

/-- Witness for C6: a two-line LF-only content round-trips exactly. -/
theorem readlines_roundtrip_witness :
    (readlines ['A', '\n', 'B']).flatten = ['A', '\n', 'B'] :=
  readlines_roundtrip ['A', '\n', 'B'] (by decide)

/-- Counterexample for C6 as stated: for the content `"A\r\nB"` the loaded
lines re-join to `"A\nB"` (the `"\r\n"` was translated on read), so
concatenation does not reconstruct the original content byte for byte. -/
theorem readlines_roundtrip_crlf_fails :
    (readlines ['A', '\x0d', '\n', 'B']).flatten ≠ ['A', '\x0d', '\n', 'B'] := by
  decide

/-- Counterexample for C2 as stated: the write step of the scripts opens
the original `project_store.rs` itself in truncating `'w'` mode and then
writes — there is no temporary file and no rename — so a run interrupted
after the open (`k = 1` of the 2 operations) leaves the file empty: neither
the original content `"A\n"` nor the complete new content. -/
theorem persist_not_atomic :
    persistAfterK ['A', '\n'] writtenSampleContent 1 = []
  ∧ ¬ (persistAfterK ['A', '\n'] writtenSampleContent 1 = ['A', '\n']
        ∨ persistAfterK ['A', '\n'] writtenSampleContent 1 = writtenSampleContent)
  ∧ persistOps writtenSampleContent
      = [FileOp.openTrunc "project_store.rs", FileOp.writeAll writtenSampleContent] := by
  refine ⟨rfl, ?_, rfl⟩
  decide

/-- Claim C2 (amended: the persist step is not atomic): it opens the target
file itself in truncating write mode and writes the new content directly —
its operation trace is exactly open-truncate followed by one write, with no
temporary location and no rename — so stopping after 0 operations leaves
the original, stopping between the truncating open and the completed write
(`k = 1`) leaves the file empty rather than the original content, and only
the completed run (`k = 2`) yields the new content. -/
theorem persist_truncates_in_place (orig content : List Char) :
    persistAfterK orig content 0 = orig
  ∧ persistAfterK orig content 1 = []
  ∧ persistAfterK orig content 2 = content
  ∧ persistOps content = [FileOp.openTrunc "project_store.rs", FileOp.writeAll content] :=
  ⟨rfl, rfl, rfl, rfl⟩

theorem load_none (fs : FS) (p : String) (h : fs p = none) :
    load fs p = .error .NotFound := by
  unfold load
  rw [h]

theorem load_bad (fs : FS) (p : String) (bs : List Nat) (h : fs p = some bs)
    (hd : utf8Decode bs = none) : load fs p = .error .DecodeError := by
  simp only [load, h, hd]

theorem load_good (fs : FS) (p : String) (bs : List Nat) (cs : List Char) (h : fs p = some bs)
    (hd : utf8Decode bs = some cs) :
    load fs p = .ok ((readlines cs).map List.asString) := by
  simp only [load, h, hd]

/-- Claim C8: the load step signals `NotFound` exactly when the source path
does not exist, signals `DecodeError` exactly when the stored bytes are not
valid UTF-8, and in either error case the run performs no other effect (the
exception propagates before the write, leaving the filesystem unchanged). -/
theorem load_error_characterization (fs : FS) (p : String) :
    (load fs p = .error .NotFound ↔ fs p = none)
  ∧ (load fs p = .error .DecodeError ↔ ∃ bs, fs p = some bs ∧ utf8Decode bs = none)
  ∧ (∀ e, load fs "project_store.rs" = .error e → scriptFS fs = fs) := by
  refine ⟨⟨?_, load_none fs p⟩, ⟨?_, ?_⟩, ?_⟩
  · intro h
    cases hfs : fs p with
    | none => rfl
    | some bs =>
      exfalso
      cases hdec : utf8Decode bs with
      | none =>
        rw [load_bad fs p bs hfs hdec] at h
        exact LoadError.noConfusion (Except.error.inj h)
      | some cs =>
        rw [load_good fs p bs cs hfs hdec] at h
        exact Except.noConfusion h
  · intro h
    cases hfs : fs p with
    | none =>
      rw [load_none fs p hfs] at h
      exact absurd (Except.error.inj h) (by intro hh; exact LoadError.noConfusion hh)
    | some bs =>
      cases hdec : utf8Decode bs with
      | none => exact ⟨bs, rfl, hdec⟩
      | some cs =>
        rw [load_good fs p bs cs hfs hdec] at h
        exact Except.noConfusion h
  · rintro ⟨bs, hfs, hdec⟩
    exact load_bad fs p bs hfs hdec
  · intro e h
    unfold scriptFS
    rw [h]

/-- Witness for C8: on the empty filesystem the load step signals
`NotFound`; on the filesystem whose `project_store.rs` holds the lone
byte `0xFF` (not valid UTF-8) it signals `DecodeError`, and the run leaves
that filesystem untouched. -/
theorem load_error_characterization_witness :
    load fsMissing "project_store.rs" = .error .NotFound
  ∧ load fsBadBytes "project_store.rs" = .error .DecodeError
  ∧ scriptFS fsBadBytes = fsBadBytes :=
  ⟨(load_error_characterization fsMissing "project_store.rs").1.mpr rfl,
   (load_error_characterization fsBadBytes "project_store.rs").2.1.mpr ⟨[0xFF], rfl, rfl⟩,
   (load_error_characterization fsBadBytes "project_store.rs").2.2 .DecodeError
     ((load_error_characterization fsBadBytes "project_store.rs").2.1.mpr
       ⟨[0xFF], rfl, rfl⟩)⟩

set_option maxRecDepth 100000 in
/-- Counterexample for C3 as stated: on the ten-line file the requested
`end = 105` exceeds the sequence length, yet no `RangeOutOfBounds` failure
occurs — the run performs the (clamped) substitution and reaches the write
step with the patched sequence. -/
theorem out_of_bounds_range_still_writes :
    load fsTen "project_store.rs" = .ok tenLines
  ∧ tenLines.length < 105
  ∧ scriptRun fsTen = .wrote (output tenLines) := by
  refine ⟨rfl, by decide, rfl⟩

/-- Claim C3 (amended: the scripts perform no range validation): even when
`end = 105` exceeds the loaded sequence's length, no `RangeOutOfBounds`
failure is signalled — the substitution (with clamping slices) and the
write step always run once the load succeeds. -/
theorem no_range_validation (fs : FS) (ls : List String)
    (h : load fs "project_store.rs" = .ok ls) (h105 : ls.length < 105) :
    scriptRun fs = .wrote (ls.take 89 ++ preciseReplacementLines) := by
  simp only [scriptRun, h]
  rw [output_eq, List.drop_eq_nil_of_le (by omega), List.append_assoc, List.append_nil]

set_option maxRecDepth 100000 in
/-- Witness for C3 (amended): the ten-line filesystem loads successfully,
is shorter than 105 lines, and the run still reaches the write step with
the clamped splice. -/
theorem no_range_validation_witness :
    scriptRun fsTen = .wrote (tenLines.take 89 ++ preciseReplacementLines) :=
  no_range_validation fsTen tenLines rfl (by decide)

set_option maxRecDepth 1000000 in
/-- Counterexample for C4 as stated: on the 105-line file whose boundary
line at index `start - 1 = 88` is just `"x\n"` — matching no caller-supplied
marker such as the old comment line the scripts' own comments describe —
no `StaleRange` failure occurs: the patch proceeds to the write step. -/
theorem stale_boundary_still_writes :
    load fsHundredFive "project_store.rs" = .ok linesHundredFive
  ∧ linesHundredFive[88]? = some "x\n"
  ∧ scriptRun fsHundredFive = .wrote (output linesHundredFive) := by
  refine ⟨rfl, by decide, rfl⟩

/-- Claim C4 (amended: the scripts take no markers and perform no staleness
check): the run never inspects the content of any boundary line — whenever
the load succeeds, the patch proceeds unconditionally to the write step,
whatever the lines around the range hold. -/
theorem no_staleness_check (fs : FS) (ls : List String)
    (h : load fs "project_store.rs" = .ok ls) :
    scriptRun fs = .wrote (output ls) := by
  unfold scriptRun
  rw [h]

set_option maxRecDepth 1000000 in
/-- Witness for C4 (amended): the 105-line filesystem loads successfully
and the run reaches the write step. -/
theorem no_staleness_check_witness :
    scriptRun fsHundredFive = .wrote (output linesHundredFive) :=
  no_staleness_check fsHundredFive linesHundredFive rfl

end AnyCode
